import Mathlib

/-!
# Verification of the task_scheduler wire protocol and worker dispatch

Shallow embedding of the `task_scheduler` Rust crate:

* `src/protocol.rs` — the length-prefixed frame codec (`ProtocolMessage::into_packet`,
  `read_protocol`, `PacketSize::from_slice`) and the bincode message model
  (`DefaultOptions::new().with_limit(MAX_PACKET_SIZE).with_big_endian().with_fixint_encoding()`);
* `src/lib.rs` — the per-connection handler loop of `run_server_on`;
* `src/workers.rs` / `src/crypto.rs` — the worker pool's per-item processing and
  `hash_reader`.

Byte strings are modelled as `List Nat` with every element `< 256`.
Rust `String` values are modelled by their UTF-8 byte content (a `List Nat`
satisfying `validUtf8`). Fallible Rust functions become `Except`-valued Lean
functions. The bincode byte-limit (`with_limit`) is modelled by threading an
explicit remaining-budget counter through the deserializer, exactly as
bincode's `Bounded` size limit is decremented by every read.
-/

/-- Byte strings on the wire: lists of byte values. -/
abbrev Bytes := List Nat

/-- `src/constants.rs`: `MAX_PACKET_SIZE = 1024 * 1024`. -/
def MAX_PACKET_SIZE : Nat := 1024 * 1024

/-- `src/constants.rs`: `MIN_PACKET_SIZE = 4` (the header size). -/
def MIN_PACKET_SIZE : Nat := 4

/-! ## Big-endian integer encoding

`u32::to_be_bytes` / `u32::from_be_bytes` and the 8-byte (u64) forms used by
bincode's fixint encoding. `toBE4 n` agrees with the Rust `as u32` cast
followed by `to_be_bytes`, because each extracted byte of `n` only depends on
`n % 2^32`. -/

/-- The four big-endian bytes of a `u32` value (`u32::to_be_bytes`). -/
def toBE4 (n : Nat) : Bytes :=
  [n / 16777216 % 256, n / 65536 % 256, n / 256 % 256, n % 256]

/-- The eight big-endian bytes of a `u64` value (bincode fixint `u64`). -/
def toBE8 (n : Nat) : Bytes :=
  [n / 72057594037927936 % 256, n / 281474976710656 % 256,
   n / 1099511627776 % 256, n / 4294967296 % 256,
   n / 16777216 % 256, n / 65536 % 256, n / 256 % 256, n % 256]

/-- Recombine four big-endian bytes into a `u32` value (`u32::from_be_bytes`). -/
def fromBE4 (a b c d : Nat) : Nat :=
  ((a * 256 + b) * 256 + c) * 256 + d

/-- Recombine eight big-endian bytes into a `u64` value. -/
def fromBE8 (a b c d e f g h : Nat) : Nat :=
  ((((((a * 256 + b) * 256 + c) * 256 + d) * 256 + e) * 256 + f) * 256 + g) * 256 + h

/-! ## The message model (`src/lib.rs`, `src/protocol.rs`)

Tagged unions with serde-derived `Serialize`/`Deserialize`; bincode assigns
each variant its declaration-order index, serialized as a fixint `u32`. -/

/-- `src/lib.rs`: `enum HashAlgorithms` — fourteen variants in declaration order. -/
inductive HashAlgorithms where
  | SHA224
  | SHA256
  | SHA384
  | SHA512
  | SHA512_224
  | SHA512_256
  | SHA3_224
  | SHA3_256
  | SHA3_384
  | SHA3_512
  | SHAKE128
  | SHAKE256
  | BLAKE3
  | UNIMPLEMENTED
  deriving DecidableEq, Repr

/-- `src/lib.rs`: `enum FilePath { Local(String), Remote(String) }`.
Strings are carried as their UTF-8 bytes. -/
inductive FilePath where
  | Local (s : Bytes)
  | Remote (s : Bytes)
  deriving DecidableEq, Repr

/-- `src/protocol.rs`: `struct HashingPacket { algorithm, path }`. -/
structure HashingPacket where
  algorithm : HashAlgorithms
  path : FilePath
  deriving DecidableEq, Repr

/-- `src/protocol.rs`: `enum TaskRequest { HashPacket(HashingPacket) }`. -/
inductive TaskRequest where
  | HashPacket (p : HashingPacket)
  deriving DecidableEq, Repr

/-- `src/protocol.rs`: `enum TaskResponse { Success(String), Failed }`. -/
inductive TaskResponse where
  | Success (s : Bytes)
  | Failed
  deriving DecidableEq, Repr

/-- `src/protocol.rs`: `enum ProtocolMessage { TaskRequest(..), TaskResponse(..) }`. -/
inductive ProtocolMessage where
  | TaskRequest (t : TaskRequest)
  | TaskResponse (r : TaskResponse)
  deriving DecidableEq, Repr

/-! ## UTF-8 validity

Rust's `String` invariant, enforced by bincode when deserializing a `String`
field (`str::from_utf8`). Strict UTF-8: no overlong forms, no surrogates,
maximum code point `U+10FFFF`. -/

/-- Strict UTF-8 validity of a byte sequence, as checked by Rust's
`str::from_utf8`. -/
def validUtf8 : Bytes → Bool
  | [] => true
  | b :: rest =>
    if b ≤ 0x7F then validUtf8 rest
    else if 0xC2 ≤ b ∧ b ≤ 0xDF then
      match rest with
      | c1 :: r => if 0x80 ≤ c1 ∧ c1 ≤ 0xBF then validUtf8 r else false
      | [] => false
    else if b = 0xE0 then
      match rest with
      | c1 :: c2 :: r =>
        if (0xA0 ≤ c1 ∧ c1 ≤ 0xBF) ∧ (0x80 ≤ c2 ∧ c2 ≤ 0xBF) then validUtf8 r else false
      | _ => false
    else if (0xE1 ≤ b ∧ b ≤ 0xEC) ∨ b = 0xEE ∨ b = 0xEF then
      match rest with
      | c1 :: c2 :: r =>
        if (0x80 ≤ c1 ∧ c1 ≤ 0xBF) ∧ (0x80 ≤ c2 ∧ c2 ≤ 0xBF) then validUtf8 r else false
      | _ => false
    else if b = 0xED then
      match rest with
      | c1 :: c2 :: r =>
        if (0x80 ≤ c1 ∧ c1 ≤ 0x9F) ∧ (0x80 ≤ c2 ∧ c2 ≤ 0xBF) then validUtf8 r else false
      | _ => false
    else if b = 0xF0 then
      match rest with
      | c1 :: c2 :: c3 :: r =>
        if (0x90 ≤ c1 ∧ c1 ≤ 0xBF) ∧ (0x80 ≤ c2 ∧ c2 ≤ 0xBF) ∧ (0x80 ≤ c3 ∧ c3 ≤ 0xBF) then
          validUtf8 r
        else false
      | _ => false
    else if 0xF1 ≤ b ∧ b ≤ 0xF3 then
      match rest with
      | c1 :: c2 :: c3 :: r =>
        if (0x80 ≤ c1 ∧ c1 ≤ 0xBF) ∧ (0x80 ≤ c2 ∧ c2 ≤ 0xBF) ∧ (0x80 ≤ c3 ∧ c3 ≤ 0xBF) then
          validUtf8 r
        else false
      | _ => false
    else if b = 0xF4 then
      match rest with
      | c1 :: c2 :: c3 :: r =>
        if (0x80 ≤ c1 ∧ c1 ≤ 0x8F) ∧ (0x80 ≤ c2 ∧ c2 ≤ 0xBF) ∧ (0x80 ≤ c3 ∧ c3 ≤ 0xBF) then
          validUtf8 r
        else false
      | _ => false
    else false

/-- A `FilePath` is the image of a Rust value iff its string bytes are valid UTF-8. -/
def validFilePath : FilePath → Bool
  | .Local s => validUtf8 s
  | .Remote s => validUtf8 s

/-- A `TaskResponse` is the image of a Rust value iff its string bytes are valid UTF-8. -/
def validResponse : TaskResponse → Bool
  | .Success s => validUtf8 s
  | .Failed => true

/-- A `ProtocolMessage` is the image of a Rust value iff all its string fields
are valid UTF-8 (Rust's `String` type guarantees this). -/
def validMessage : ProtocolMessage → Bool
  | .TaskRequest (.HashPacket p) => validFilePath p.path
  | .TaskResponse r => validResponse r

/-! ## Serialization (bincode, fixint, big-endian)

`bincode_config()` in `src/protocol.rs` is
`DefaultOptions::new().with_limit(MAX_PACKET_SIZE).with_big_endian().with_fixint_encoding()`.
Under it, an enum discriminant serializes as a fixed 4-byte big-endian `u32`
(the variant's declaration index), a `String` as a fixed 8-byte big-endian
`u64` length followed by its UTF-8 bytes, and a struct as its fields in
declaration order. -/

/-- The serde variant index of a `HashAlgorithms` value (declaration order). -/
def hashAlgTag : HashAlgorithms → Nat
  | .SHA224 => 0
  | .SHA256 => 1
  | .SHA384 => 2
  | .SHA512 => 3
  | .SHA512_224 => 4
  | .SHA512_256 => 5
  | .SHA3_224 => 6
  | .SHA3_256 => 7
  | .SHA3_384 => 8
  | .SHA3_512 => 9
  | .SHAKE128 => 10
  | .SHAKE256 => 11
  | .BLAKE3 => 12
  | .UNIMPLEMENTED => 13

/-- Bincode serialization of a Rust `String`: u64 length then the bytes. -/
def serString (s : Bytes) : Bytes := toBE8 s.length ++ s

/-- Bincode serialization of `FilePath` (tags: `Local` = 0, `Remote` = 1). -/
def serFilePath : FilePath → Bytes
  | .Local s => toBE4 0 ++ serString s
  | .Remote s => toBE4 1 ++ serString s

/-- Bincode serialization of `HashingPacket`: fields in declaration order. -/
def serHashingPacket (p : HashingPacket) : Bytes :=
  toBE4 (hashAlgTag p.algorithm) ++ serFilePath p.path

/-- Bincode serialization of `TaskRequest` (tag: `HashPacket` = 0). -/
def serTaskRequest : TaskRequest → Bytes
  | .HashPacket p => toBE4 0 ++ serHashingPacket p

/-- Bincode serialization of `TaskResponse` (tags: `Success` = 0, `Failed` = 1). -/
def serTaskResponse : TaskResponse → Bytes
  | .Success s => toBE4 0 ++ serString s
  | .Failed => toBE4 1

/-- Bincode serialization of `ProtocolMessage`
(tags: `TaskRequest` = 0, `TaskResponse` = 1). -/
def serialize : ProtocolMessage → Bytes
  | .TaskRequest t => toBE4 0 ++ serTaskRequest t
  | .TaskResponse r => toBE4 1 ++ serTaskResponse r

/-! ## Error types (`src/protocol.rs`) -/

/-- The kinds of `bincode::ErrorKind` reachable in this program:
`SizeLimit` (the `with_limit` budget exceeded), an unexpected-EOF I/O error,
an out-of-range enum variant index, and invalid UTF-8 in a `String` field. -/
inductive BincodeError where
  | SizeLimit
  | Eof
  | InvalidVariant
  | Utf8
  deriving DecidableEq, Repr

/-- `src/protocol.rs`: `enum ProtocolError` (the variants reachable in the
embedded code; `TimeOutError` is a real-time condition outside the model). -/
inductive ProtocolError where
  | PacketTooShort
  | PacketTooLarge (n : Nat)
  | Bincode (e : BincodeError)
  | Io
  | InternalLimitExceeded
  deriving DecidableEq, Repr

/-! ## `serialized_size` and `into_packet` (`src/protocol.rs`)

With `with_limit(MAX_PACKET_SIZE)`, bincode's `serialized_size` runs a
`SizeChecker` that charges every byte against the `Bounded` limit and fails
with `ErrorKind::SizeLimit` as soon as the running total exceeds it. Since
every charge is positive, it fails iff the total size exceeds the limit. -/

/-- `bincode_config().serialized_size(self)`: the payload size, or
`ErrorKind::SizeLimit` when it exceeds `MAX_PACKET_SIZE`. -/
def serializedSize (m : ProtocolMessage) : Except BincodeError Nat :=
  if (serialize m).length > MAX_PACKET_SIZE then .error .SizeLimit
  else .ok (serialize m).length

/-- `ProtocolMessage::into_packet`: compute the serialized size (fallible),
reject sizes above `MAX_PACKET_SIZE` with `PacketTooLarge`, then emit the
4-byte big-endian length header followed by the bincode payload.
The header is `(payload_size as u32).to_be_bytes()`; `toBE4` agrees with the
truncating cast. `serialize_into` cannot fail on the success path because the
size was already checked against the same limit. -/
def intoPacket (m : ProtocolMessage) : Except ProtocolError Bytes :=
  match serializedSize m with
  | .error e => .error (.Bincode e)
  | .ok payload_size =>
    if payload_size > MAX_PACKET_SIZE then .error (.PacketTooLarge payload_size)
    else .ok (toBE4 payload_size ++ serialize m)

/-! ## Deserialization (bincode with a byte budget)

Bincode's `Bounded` limit is decremented by every read; `read_bytes` performs
the limit check *before* the length/EOF check (the limit guards allocation).
State: remaining input and remaining budget. -/

/-- Deserializer state: unread input bytes and the remaining byte budget of
bincode's `Bounded(MAX_PACKET_SIZE)` limit. -/
structure DeState where
  input : Bytes
  budget : Nat
  deriving DecidableEq, Repr

/-- Read `n` raw bytes: `SizeLimit` if over budget (checked first, before any
allocation), unexpected-EOF if the input is shorter than `n`. -/
def readBytesDe (n : Nat) (s : DeState) : Except BincodeError (Bytes × DeState) :=
  if s.budget < n then .error .SizeLimit
  else if s.input.length < n then .error .Eof
  else .ok (s.input.take n, ⟨s.input.drop n, s.budget - n⟩)

/-- Deserialize a fixint big-endian `u32`. -/
def deU32 (s : DeState) : Except BincodeError (Nat × DeState) :=
  match readBytesDe 4 s with
  | .error e => .error e
  | .ok (bs, s1) =>
    match bs with
    | [a, b, c, d] => .ok (fromBE4 a b c d, s1)
    | _ => .error .Eof

/-- Deserialize a fixint big-endian `u64`. -/
def deU64 (s : DeState) : Except BincodeError (Nat × DeState) :=
  match readBytesDe 8 s with
  | .error e => .error e
  | .ok (bs, s1) =>
    match bs with
    | [a, b, c, d, e, f, g, h] => .ok (fromBE8 a b c d e f g h, s1)
    | _ => .error .Eof

/-- Deserialize a Rust `String`: u64 length, then that many bytes, then the
UTF-8 validity check performed by `String` deserialization. -/
def deString (s : DeState) : Except BincodeError (Bytes × DeState) :=
  match deU64 s with
  | .error e => .error e
  | .ok (len, s1) =>
    match readBytesDe len s1 with
    | .error e => .error e
    | .ok (bs, s2) => if validUtf8 bs then .ok (bs, s2) else .error .Utf8

/-- The serde-derived `Deserialize` for `HashAlgorithms`: a variant index
outside `0 ≤ i < 14` is a hard error (there is no catch-all attribute on
`UNIMPLEMENTED`; it is an ordinary variant with index 13). -/
def deHashAlg (s : DeState) : Except BincodeError (HashAlgorithms × DeState) :=
  match deU32 s with
  | .error e => .error e
  | .ok (t, s1) =>
    if t = 0 then .ok (.SHA224, s1)
    else if t = 1 then .ok (.SHA256, s1)
    else if t = 2 then .ok (.SHA384, s1)
    else if t = 3 then .ok (.SHA512, s1)
    else if t = 4 then .ok (.SHA512_224, s1)
    else if t = 5 then .ok (.SHA512_256, s1)
    else if t = 6 then .ok (.SHA3_224, s1)
    else if t = 7 then .ok (.SHA3_256, s1)
    else if t = 8 then .ok (.SHA3_384, s1)
    else if t = 9 then .ok (.SHA3_512, s1)
    else if t = 10 then .ok (.SHAKE128, s1)
    else if t = 11 then .ok (.SHAKE256, s1)
    else if t = 12 then .ok (.BLAKE3, s1)
    else if t = 13 then .ok (.UNIMPLEMENTED, s1)
    else .error .InvalidVariant

/-- The serde-derived `Deserialize` for `FilePath`: unknown indices hard-fail. -/
def deFilePath (s : DeState) : Except BincodeError (FilePath × DeState) :=
  match deU32 s with
  | .error e => .error e
  | .ok (t, s1) =>
    if t = 0 then
      match deString s1 with
      | .error e => .error e
      | .ok (str, s2) => .ok (.Local str, s2)
    else if t = 1 then
      match deString s1 with
      | .error e => .error e
      | .ok (str, s2) => .ok (.Remote str, s2)
    else .error .InvalidVariant

/-- The serde-derived `Deserialize` for `HashingPacket`: fields in order. -/
def deHashingPacket (s : DeState) : Except BincodeError (HashingPacket × DeState) :=
  match deHashAlg s with
  | .error e => .error e
  | .ok (alg, s1) =>
    match deFilePath s1 with
    | .error e => .error e
    | .ok (p, s2) => .ok (⟨alg, p⟩, s2)

/-- The serde-derived `Deserialize` for `TaskRequest`: unknown indices hard-fail. -/
def deTaskRequest (s : DeState) : Except BincodeError (TaskRequest × DeState) :=
  match deU32 s with
  | .error e => .error e
  | .ok (t, s1) =>
    if t = 0 then
      match deHashingPacket s1 with
      | .error e => .error e
      | .ok (p, s2) => .ok (.HashPacket p, s2)
    else .error .InvalidVariant

/-- The serde-derived `Deserialize` for `TaskResponse`: unknown indices hard-fail. -/
def deTaskResponse (s : DeState) : Except BincodeError (TaskResponse × DeState) :=
  match deU32 s with
  | .error e => .error e
  | .ok (t, s1) =>
    if t = 0 then
      match deString s1 with
      | .error e => .error e
      | .ok (str, s2) => .ok (.Success str, s2)
    else if t = 1 then .ok (.Failed, s1)
    else .error .InvalidVariant

/-- The serde-derived `Deserialize` for `ProtocolMessage`: unknown indices hard-fail. -/
def deProtocolMessage (s : DeState) : Except BincodeError (ProtocolMessage × DeState) :=
  match deU32 s with
  | .error e => .error e
  | .ok (t, s1) =>
    if t = 0 then
      match deTaskRequest s1 with
      | .error e => .error e
      | .ok (r, s2) => .ok (.TaskRequest r, s2)
    else if t = 1 then
      match deTaskResponse s1 with
      | .error e => .error e
      | .ok (r, s2) => .ok (.TaskResponse r, s2)
    else .error .InvalidVariant

/-- `bincode_config().deserialize(&payload)`: run the deserializer on the
payload with the full `MAX_PACKET_SIZE` budget; trailing bytes are not
rejected by bincode's `deserialize`. -/
def deserialize (payload : Bytes) : Except BincodeError ProtocolMessage :=
  match deProtocolMessage ⟨payload, MAX_PACKET_SIZE⟩ with
  | .error e => .error e
  | .ok (m, _) => .ok m

/-! ## The frame reader (`src/protocol.rs`) -/

/-- `src/protocol.rs`: `struct PacketSize(u32)`. -/
structure PacketSize where
  val : Nat
  deriving DecidableEq, Repr

/-- `PacketSize::from_slice`: fewer than 4 bytes is `PacketTooShort`;
otherwise the `u32` built from the first four bytes (big-endian), trailing
bytes ignored. -/
def PacketSize.from_slice (slice : Bytes) : Except ProtocolError PacketSize :=
  match slice with
  | a :: b :: c :: d :: _ => .ok ⟨fromBE4 a b c d⟩
  | _ => .error .PacketTooShort

/-- `read_protocol`, with the TCP stream modelled as the byte sequence the
peer sends. Reads exactly 4 header bytes (EOF is an I/O error), parses the
size, rejects `len > MAX_PACKET_SIZE` with `PacketTooLarge len` *before*
touching the payload, then reads exactly `len` payload bytes and bincode-
deserializes them. The 5-second timeout is a real-time condition outside the
model. -/
def read_protocol (stream : Bytes) : Except ProtocolError ProtocolMessage :=
  if stream.length < 4 then .error .Io
  else
    match PacketSize.from_slice (stream.take 4) with
    | .error e => .error e
    | .ok packet_size =>
      let len := packet_size.val
      if len > MAX_PACKET_SIZE then .error (.PacketTooLarge len)
      else if (stream.drop 4).length < len then .error .Io
      else
        match deserialize ((stream.drop 4).take len) with
        | .error e => .error (.Bincode e)
        | .ok m => .ok m

/-! ## The connection handler (`src/lib.rs`, `run_server_on`)

One iteration of the per-connection loop, as a function of the environment's
responses at its suspension points:

* `readResult` — the outcome of `read_protocol(&mut socket)`;
* `awaitResult` — the outcome of `resp_rx.await` on the one-shot channel:
  `none` when the await returns `Err` (the sender was dropped without a reply
  — which is also what happens when `task_sender.send(work)` fails, since the
  failed send drops the `WorkItem` and with it the one-shot sender; the send's
  own result is discarded by `let _ =`);
* `writeOk` — whether `socket.write_all(&packet)` succeeds.

The iteration's observable behaviour is the list of complete frames written
to the socket and whether the loop continues or the connection closes. -/

/-- Whether the connection loop continues or breaks (connection closed). -/
inductive HandlerOutcome where
  | closed
  | continued
  deriving DecidableEq, Repr

/-- Observable result of one handler-loop iteration: frames fully written to
the socket, and the loop outcome. -/
structure HandlerStep where
  sent : List Bytes
  outcome : HandlerOutcome
  deriving DecidableEq, Repr

/-- One iteration of the connection loop in `run_server_on`:
read error → `break`; a `TaskResponse` from the client → `continue`;
a `HashPacket` request → send to the queue (result discarded), await the
one-shot; a failed await → fall through to the next iteration with nothing
written; `into_packet` failure on the result → log and `continue`;
write failure → `break` (no complete frame delivered). -/
def handlerStep (readResult : Except ProtocolError ProtocolMessage)
    (awaitResult : Option ProtocolMessage) (writeOk : Bool) : HandlerStep :=
  match readResult with
  | .error _ => ⟨[], .closed⟩
  | .ok (.TaskResponse _) => ⟨[], .continued⟩
  | .ok (.TaskRequest (.HashPacket _)) =>
    match awaitResult with
    | none => ⟨[], .continued⟩
    | some result =>
      match intoPacket result with
      | .error _ => ⟨[], .continued⟩
      | .ok packet =>
        if writeOk then ⟨[packet], .continued⟩
        else ⟨[], .closed⟩

/-! ## The worker pool (`src/workers.rs`) and `hash_reader` (`src/crypto.rs`)

The digest capabilities are external collaborators: `digests alg` maps file
contents to the hex digest string. The filesystem is modelled as a function
from path bytes to either the file's contents or an I/O error (open or read
failure). -/

/-- `src/crypto.rs`: `enum HashError { NotImplemented, Io(..) }`. -/
inductive HashError where
  | NotImplemented
  | Io
  deriving DecidableEq, Repr

/-- `src/crypto.rs`: `hash_reader::<D>` — open the local file (I/O errors
propagate), `Remote` paths fail with `NotImplemented`, otherwise digest the
full contents (the 8 KiB read loop composed with `finalize` and hex
formatting is the external `Digest` capability). -/
def hash_reader (digest : Bytes → Bytes) (fs : Bytes → Except Unit Bytes)
    (path : FilePath) : Except HashError Bytes :=
  match path with
  | .Local p =>
    match fs p with
    | .error _ => .error .Io
    | .ok contents => .ok (digest contents)
  | .Remote _ => .error .NotImplemented

/-- The match on `packet.algorithm()` inside the worker's `spawn_blocking`
closure: the ten sha2/sha3 arms call `hash_reader`, `BLAKE3` inlines the same
open/loop/finalize pattern, and the `_` arm — covering `SHAKE128`,
`SHAKE256` and `UNIMPLEMENTED` — fails with `NotImplemented`. -/
def workerCompute (digests : HashAlgorithms → Bytes → Bytes)
    (fs : Bytes → Except Unit Bytes) (packet : HashingPacket) :
    Except HashError Bytes :=
  match packet.algorithm with
  | .SHA224 => hash_reader (digests .SHA224) fs packet.path
  | .SHA256 => hash_reader (digests .SHA256) fs packet.path
  | .SHA384 => hash_reader (digests .SHA384) fs packet.path
  | .SHA512 => hash_reader (digests .SHA512) fs packet.path
  | .SHA512_224 => hash_reader (digests .SHA512_224) fs packet.path
  | .SHA512_256 => hash_reader (digests .SHA512_256) fs packet.path
  | .SHA3_224 => hash_reader (digests .SHA3_224) fs packet.path
  | .SHA3_256 => hash_reader (digests .SHA3_256) fs packet.path
  | .SHA3_384 => hash_reader (digests .SHA3_384) fs packet.path
  | .SHA3_512 => hash_reader (digests .SHA3_512) fs packet.path
  | .BLAKE3 =>
    match packet.path with
    | .Local p =>
      match fs p with
      | .error _ => .error .Io
      | .ok contents => .ok (digests .BLAKE3 contents)
    | .Remote _ => .error .NotImplemented
  | _ => .error .NotImplemented

/-- The worker's mapping of the `spawn_blocking` join result to the reply:
`Ok(Ok(h))` → `Success(h)`, `Ok(Err(_))` → `Failed`, and a failed join
(`Err(_)`, e.g. the blocking task panicked) → `Failed`. -/
def finalResponse (result : Except Unit (Except HashError Bytes)) :
    ProtocolMessage :=
  match result with
  | .ok (.ok h) => .TaskResponse (.Success h)
  | .ok (.error _) => .TaskResponse .Failed
  | .error _ => .TaskResponse .Failed

/-- `tokio::sync::oneshot::Sender::send`: delivers when the receiver is still
alive, otherwise returns the message back as an `Err` — it never panics. -/
def responderSend (receiverOpen : Bool) (msg : ProtocolMessage) :
    Except ProtocolMessage Unit :=
  if receiverOpen then .ok () else .error msg

/-- The tail of the worker's per-item processing: build `final_response` and
call `responder.send` on it exactly once, discarding the send's result
(`let _ = responder.send(final_response)`). The returned list is the sequence
of messages passed to the responder during the item's processing. -/
def workerFulfill (receiverOpen : Bool)
    (result : Except Unit (Except HashError Bytes)) : List ProtocolMessage :=
  let final_response := finalResponse result
  let _ := responderSend receiverOpen final_response
  [final_response]

/-! ## Basic length and big-endian round-trip lemmas -/

theorem toBE4_length (n : Nat) : (toBE4 n).length = 4 := rfl

theorem toBE8_length (n : Nat) : (toBE8 n).length = 8 := rfl

theorem fromBE4_toBE4 (n : Nat) (h : n < 4294967296) :
    fromBE4 (n / 16777216 % 256) (n / 65536 % 256) (n / 256 % 256) (n % 256) = n := by
  unfold fromBE4
  omega

theorem fromBE8_toBE8 (n : Nat) (h : n < 18446744073709551616) :
    fromBE8 (n / 72057594037927936 % 256) (n / 281474976710656 % 256)
      (n / 1099511627776 % 256) (n / 4294967296 % 256)
      (n / 16777216 % 256) (n / 65536 % 256) (n / 256 % 256) (n % 256) = n := by
  unfold fromBE8
  omega


/-! ## Round-trip lemmas: the deserializer inverts the serializer -/

theorem readBytesDe_exact (xs rest : Bytes) (b : Nat) (h : xs.length ≤ b) :
    readBytesDe xs.length ⟨xs ++ rest, b⟩ = .ok (xs, ⟨rest, b - xs.length⟩) := by
  have h1 : ¬ b < xs.length := by omega
  have h2 : ¬ (xs ++ rest).length < xs.length := by
    simp [List.length_append]
  simp [readBytesDe, h1, h2, List.take_left, List.drop_left]

theorem deU32_toBE4 (n : Nat) (rest : Bytes) (b : Nat)
    (hn : n < 4294967296) (hb : 4 ≤ b) :
    deU32 ⟨toBE4 n ++ rest, b⟩ = .ok (n, ⟨rest, b - 4⟩) := by
  have h := readBytesDe_exact (toBE4 n) rest b (by rw [toBE4_length]; omega)
  rw [toBE4_length] at h
  unfold deU32
  rw [h]
  simp [toBE4, fromBE4_toBE4 n hn]

theorem deU64_toBE8 (n : Nat) (rest : Bytes) (b : Nat)
    (hn : n < 18446744073709551616) (hb : 8 ≤ b) :
    deU64 ⟨toBE8 n ++ rest, b⟩ = .ok (n, ⟨rest, b - 8⟩) := by
  have h := readBytesDe_exact (toBE8 n) rest b (by rw [toBE8_length]; omega)
  rw [toBE8_length] at h
  unfold deU64
  rw [h]
  simp [toBE8, fromBE8_toBE8 n hn]

theorem deString_ser (s rest : Bytes) (b : Nat)
    (hb : 8 + s.length ≤ b) (hb64 : b < 18446744073709551616)
    (hv : validUtf8 s = true) :
    deString ⟨serString s ++ rest, b⟩ = .ok (s, ⟨rest, b - (serString s).length⟩) := by
  have h1 : deU64 ⟨toBE8 s.length ++ (s ++ rest), b⟩ =
      .ok (s.length, ⟨s ++ rest, b - 8⟩) :=
    deU64_toBE8 s.length (s ++ rest) b (by omega) (by omega)
  have h2 : readBytesDe s.length ⟨s ++ rest, b - 8⟩ =
      .ok (s, ⟨rest, b - 8 - s.length⟩) :=
    readBytesDe_exact s rest (b - 8) (by omega)
  have hbud : b - 8 - s.length = b - (serString s).length := by
    simp only [serString, List.length_append, toBE8_length]
    omega
  have harg : serString s ++ rest = toBE8 s.length ++ (s ++ rest) := by
    simp [serString, List.append_assoc]
  unfold deString
  rw [harg, h1]
  simp only [h2, hv, if_true, hbud]

theorem deFilePath_ser (p : FilePath) (rest : Bytes) (b : Nat)
    (hb : (serFilePath p).length ≤ b) (hb64 : b < 18446744073709551616)
    (hv : validFilePath p = true) :
    deFilePath ⟨serFilePath p ++ rest, b⟩ = .ok (p, ⟨rest, b - (serFilePath p).length⟩) := by
  cases p with
  | Local s =>
    have hlen : (serFilePath (FilePath.Local s)).length = 4 + (8 + s.length) := by
      simp only [serFilePath, serString, List.length_append, toBE4_length, toBE8_length]
    rw [hlen] at hb
    have h1 : deU32 ⟨toBE4 0 ++ (serString s ++ rest), b⟩ =
        .ok (0, ⟨serString s ++ rest, b - 4⟩) :=
      deU32_toBE4 0 (serString s ++ rest) b (by omega) (by omega)
    have h2 := deString_ser s rest (b - 4) (by omega) (by omega) hv
    have hbud : b - 4 - (serString s).length =
        b - (serFilePath (FilePath.Local s)).length := by
      simp only [serFilePath, serString, List.length_append, toBE4_length, toBE8_length]
      omega
    have harg : serFilePath (FilePath.Local s) ++ rest = toBE4 0 ++ (serString s ++ rest) := by
      simp [serFilePath, List.append_assoc]
    unfold deFilePath
    rw [harg, h1]
    simp [h2, hbud]
  | Remote s =>
    have hlen : (serFilePath (FilePath.Remote s)).length = 4 + (8 + s.length) := by
      simp only [serFilePath, serString, List.length_append, toBE4_length, toBE8_length]
    rw [hlen] at hb
    have h1 : deU32 ⟨toBE4 1 ++ (serString s ++ rest), b⟩ =
        .ok (1, ⟨serString s ++ rest, b - 4⟩) :=
      deU32_toBE4 1 (serString s ++ rest) b (by omega) (by omega)
    have h2 := deString_ser s rest (b - 4) (by omega) (by omega) hv
    have hbud : b - 4 - (serString s).length =
        b - (serFilePath (FilePath.Remote s)).length := by
      simp only [serFilePath, serString, List.length_append, toBE4_length, toBE8_length]
      omega
    have harg : serFilePath (FilePath.Remote s) ++ rest = toBE4 1 ++ (serString s ++ rest) := by
      simp [serFilePath, List.append_assoc]
    unfold deFilePath
    rw [harg, h1]
    simp [h2, hbud]

theorem deHashAlg_ser (a : HashAlgorithms) (rest : Bytes) (b : Nat) (hb : 4 ≤ b) :
    deHashAlg ⟨toBE4 (hashAlgTag a) ++ rest, b⟩ = .ok (a, ⟨rest, b - 4⟩) := by
  have h := deU32_toBE4 (hashAlgTag a) rest b (by cases a <;> decide) hb
  unfold deHashAlg
  rw [h]
  cases a <;> rfl

theorem deHashingPacket_ser (p : HashingPacket) (rest : Bytes) (b : Nat)
    (hb : (serHashingPacket p).length ≤ b) (hb64 : b < 18446744073709551616)
    (hv : validFilePath p.path = true) :
    deHashingPacket ⟨serHashingPacket p ++ rest, b⟩ =
      .ok (p, ⟨rest, b - (serHashingPacket p).length⟩) := by
  have hlen : (serHashingPacket p).length = 4 + (serFilePath p.path).length := by
    simp only [serHashingPacket, List.length_append, toBE4_length]
  rw [hlen] at hb
  have h1 : deHashAlg ⟨toBE4 (hashAlgTag p.algorithm) ++ (serFilePath p.path ++ rest), b⟩ =
      .ok (p.algorithm, ⟨serFilePath p.path ++ rest, b - 4⟩) :=
    deHashAlg_ser p.algorithm (serFilePath p.path ++ rest) b (by omega)
  have h2 := deFilePath_ser p.path rest (b - 4) (by omega) (by omega) hv
  have hbud : b - 4 - (serFilePath p.path).length =
      b - (serHashingPacket p).length := by
    rw [hlen]
    omega
  have harg : serHashingPacket p ++ rest =
      toBE4 (hashAlgTag p.algorithm) ++ (serFilePath p.path ++ rest) := by
    simp [serHashingPacket, List.append_assoc]
  unfold deHashingPacket
  rw [harg, h1]
  simp [h2, hbud]

theorem deTaskRequest_ser (t : TaskRequest) (rest : Bytes) (b : Nat)
    (hb : (serTaskRequest t).length ≤ b) (hb64 : b < 18446744073709551616)
    (hv : validMessage (.TaskRequest t) = true) :
    deTaskRequest ⟨serTaskRequest t ++ rest, b⟩ =
      .ok (t, ⟨rest, b - (serTaskRequest t).length⟩) := by
  cases t with
  | HashPacket p =>
    have hlen : (serTaskRequest (TaskRequest.HashPacket p)).length =
        4 + (serHashingPacket p).length := by
      simp only [serTaskRequest, List.length_append, toBE4_length]
    rw [hlen] at hb
    have h1 : deU32 ⟨toBE4 0 ++ (serHashingPacket p ++ rest), b⟩ =
        .ok (0, ⟨serHashingPacket p ++ rest, b - 4⟩) :=
      deU32_toBE4 0 (serHashingPacket p ++ rest) b (by omega) (by omega)
    have h2 := deHashingPacket_ser p rest (b - 4) (by omega) (by omega) hv
    have hbud : b - 4 - (serHashingPacket p).length =
        b - (serTaskRequest (TaskRequest.HashPacket p)).length := by
      rw [hlen]
      omega
    have harg : serTaskRequest (TaskRequest.HashPacket p) ++ rest =
        toBE4 0 ++ (serHashingPacket p ++ rest) := by
      simp [serTaskRequest, List.append_assoc]
    unfold deTaskRequest
    rw [harg, h1]
    simp [h2, hbud]

theorem deTaskResponse_ser (r : TaskResponse) (rest : Bytes) (b : Nat)
    (hb : (serTaskResponse r).length ≤ b) (hb64 : b < 18446744073709551616)
    (hv : validResponse r = true) :
    deTaskResponse ⟨serTaskResponse r ++ rest, b⟩ =
      .ok (r, ⟨rest, b - (serTaskResponse r).length⟩) := by
  cases r with
  | Success s =>
    have hlen : (serTaskResponse (TaskResponse.Success s)).length =
        4 + (serString s).length := by
      simp only [serTaskResponse, List.length_append, toBE4_length]
    rw [hlen] at hb
    have h1 : deU32 ⟨toBE4 0 ++ (serString s ++ rest), b⟩ =
        .ok (0, ⟨serString s ++ rest, b - 4⟩) :=
      deU32_toBE4 0 (serString s ++ rest) b (by omega) (by omega)
    have hslen : (serString s).length = 8 + s.length := by
      simp only [serString, List.length_append, toBE8_length]
    have h2 := deString_ser s rest (b - 4) (by omega) (by omega) hv
    have hbud : b - 4 - (serString s).length =
        b - (serTaskResponse (TaskResponse.Success s)).length := by
      rw [hlen]
      omega
    have harg : serTaskResponse (TaskResponse.Success s) ++ rest =
        toBE4 0 ++ (serString s ++ rest) := by
      simp [serTaskResponse, List.append_assoc]
    unfold deTaskResponse
    rw [harg, h1]
    simp [h2, hbud]
  | Failed =>
    have h1 : deU32 ⟨toBE4 1 ++ rest, b⟩ = .ok (1, ⟨rest, b - 4⟩) :=
      deU32_toBE4 1 rest b (by omega) (by simpa [serTaskResponse, toBE4_length] using hb)
    have harg : serTaskResponse TaskResponse.Failed ++ rest = toBE4 1 ++ rest := by
      simp [serTaskResponse]
    unfold deTaskResponse
    rw [harg, h1]
    simp [serTaskResponse, toBE4_length]

theorem deProtocolMessage_ser (m : ProtocolMessage) (rest : Bytes) (b : Nat)
    (hb : (serialize m).length ≤ b) (hb64 : b < 18446744073709551616)
    (hv : validMessage m = true) :
    deProtocolMessage ⟨serialize m ++ rest, b⟩ =
      .ok (m, ⟨rest, b - (serialize m).length⟩) := by
  cases m with
  | TaskRequest t =>
    have hlen : (serialize (ProtocolMessage.TaskRequest t)).length =
        4 + (serTaskRequest t).length := by
      simp only [serialize, List.length_append, toBE4_length]
    rw [hlen] at hb
    have h1 : deU32 ⟨toBE4 0 ++ (serTaskRequest t ++ rest), b⟩ =
        .ok (0, ⟨serTaskRequest t ++ rest, b - 4⟩) :=
      deU32_toBE4 0 (serTaskRequest t ++ rest) b (by omega) (by omega)
    have h2 := deTaskRequest_ser t rest (b - 4) (by omega) (by omega) hv
    have hbud : b - 4 - (serTaskRequest t).length =
        b - (serialize (ProtocolMessage.TaskRequest t)).length := by
      rw [hlen]
      omega
    have harg : serialize (ProtocolMessage.TaskRequest t) ++ rest =
        toBE4 0 ++ (serTaskRequest t ++ rest) := by
      simp [serialize, List.append_assoc]
    unfold deProtocolMessage
    rw [harg, h1]
    simp [h2, hbud]
  | TaskResponse r =>
    have hlen : (serialize (ProtocolMessage.TaskResponse r)).length =
        4 + (serTaskResponse r).length := by
      simp only [serialize, List.length_append, toBE4_length]
    rw [hlen] at hb
    have h1 : deU32 ⟨toBE4 1 ++ (serTaskResponse r ++ rest), b⟩ =
        .ok (1, ⟨serTaskResponse r ++ rest, b - 4⟩) :=
      deU32_toBE4 1 (serTaskResponse r ++ rest) b (by omega) (by omega)
    have h2 := deTaskResponse_ser r rest (b - 4) (by omega) (by omega) hv
    have hbud : b - 4 - (serTaskResponse r).length =
        b - (serialize (ProtocolMessage.TaskResponse r)).length := by
      rw [hlen]
      omega
    have harg : serialize (ProtocolMessage.TaskResponse r) ++ rest =
        toBE4 1 ++ (serTaskResponse r ++ rest) := by
      simp [serialize, List.append_assoc]
    unfold deProtocolMessage
    rw [harg, h1]
    simp [h2, hbud]

theorem deserialize_serialize (m : ProtocolMessage)
    (hlen : (serialize m).length ≤ MAX_PACKET_SIZE)
    (hv : validMessage m = true) :
    deserialize (serialize m) = .ok m := by
  have h := deProtocolMessage_ser m [] MAX_PACKET_SIZE hlen (by norm_num [MAX_PACKET_SIZE]) hv
  rw [List.append_nil] at h
  unfold deserialize
  rw [h]

/-! ## Claim theorems -/

/-- C6: for every byte slice of length strictly less than 4 presented as a
frame header, `PacketSize::from_slice` fails with `PacketTooShort`. -/
theorem from_slice_too_short (s : Bytes) (h : s.length < 4) :
    PacketSize.from_slice s = .error .PacketTooShort := by
  rcases s with _ | ⟨a, _ | ⟨b, _ | ⟨c, _ | ⟨d, t⟩⟩⟩⟩
  · rfl
  · rfl
  · rfl
  · rfl
  · exfalso
    simp [List.length_cons] at h
    omega

/-- Witness for C6 at the concrete two-byte slice `[0, 1]`. -/
theorem from_slice_too_short_witness :
    PacketSize.from_slice [0, 1] = .error .PacketTooShort :=
  from_slice_too_short [0, 1] (by decide)

/-- C5: for every header declaring a length strictly greater than
`MAX_PACKET_SIZE`, `read_protocol` fails with `PacketTooLarge` carrying that
length — for *any* suffix of the stream, including an empty one, i.e. without
needing or touching a single payload byte. -/
theorem read_protocol_too_large (a b c d : Nat) (t : Bytes)
    (h : fromBE4 a b c d > MAX_PACKET_SIZE) :
    read_protocol (a :: b :: c :: d :: t) =
      .error (.PacketTooLarge (fromBE4 a b c d)) := by
  have h4 : ¬ ((a :: b :: c :: d :: t).length < 4) := by
    simp [List.length_cons]
  have htake : (a :: b :: c :: d :: t).take 4 = [a, b, c, d] := rfl
  unfold read_protocol
  rw [if_neg h4, htake]
  simp only [PacketSize.from_slice]
  rw [if_pos h]

/-- Witness for C5: a header declaring 2 MiB (scenario D of the spec), with
no payload bytes at all, is rejected as too large. -/
theorem read_protocol_too_large_witness :
    read_protocol [0, 32, 0, 0] = .error (.PacketTooLarge (fromBE4 0 32 0 0)) :=
  read_protocol_too_large 0 32 0 0 [] (by decide)

/-- C10: any slice of length at least 4 parses as the big-endian `u32` value
of its first four bytes, trailing bytes ignored; and a declared length of
exactly `MAX_PACKET_SIZE` is accepted by `read_protocol` — it proceeds to
bincode deserialization of the payload instead of rejecting the frame. -/
theorem from_slice_ok_and_max_accepted :
    (∀ (a b c d : Nat) (t : Bytes),
      PacketSize.from_slice (a :: b :: c :: d :: t) = .ok ⟨fromBE4 a b c d⟩)
    ∧ ∀ payload : Bytes, payload.length = MAX_PACKET_SIZE →
        read_protocol (toBE4 MAX_PACKET_SIZE ++ payload) =
          (deserialize payload).mapError ProtocolError.Bincode := by
  constructor
  · intro a b c d t
    rfl
  · intro payload hlen
    have hstream : ¬ ((toBE4 MAX_PACKET_SIZE ++ payload).length < 4) := by
      simp [List.length_append, toBE4_length]
    have htake : (toBE4 MAX_PACKET_SIZE ++ payload).take 4 = toBE4 MAX_PACKET_SIZE := by
      have h := List.take_left (toBE4 MAX_PACKET_SIZE) payload
      rwa [toBE4_length] at h
    have hdrop : (toBE4 MAX_PACKET_SIZE ++ payload).drop 4 = payload := by
      have h := List.drop_left (toBE4 MAX_PACKET_SIZE) payload
      rwa [toBE4_length] at h
    have hfs : PacketSize.from_slice (toBE4 MAX_PACKET_SIZE) = .ok ⟨MAX_PACKET_SIZE⟩ := rfl
    have hc1 : ¬ (MAX_PACKET_SIZE > MAX_PACKET_SIZE) := lt_irrefl _
    have hc2 : ¬ (payload.length < MAX_PACKET_SIZE) := by
      rw [hlen]
      exact lt_irrefl _
    have htakeall : payload.take MAX_PACKET_SIZE = payload := by
      rw [← hlen]
      exact List.take_length payload
    unfold read_protocol
    rw [if_neg hstream, htake]
    simp only [hfs, if_neg hc1, if_neg hc2, hdrop, htakeall]
    cases hdes : deserialize payload with
    | error e => simp [Except.mapError]
    | ok m => simp [Except.mapError]

/-- Witness for C10 with a concrete payload of exactly `MAX_PACKET_SIZE`
zero bytes: the reader reaches deserialization rather than failing with
`PacketTooLarge`. -/
theorem from_slice_ok_and_max_accepted_witness :
    read_protocol (toBE4 MAX_PACKET_SIZE ++ List.replicate MAX_PACKET_SIZE 0) =
      (deserialize (List.replicate MAX_PACKET_SIZE 0)).mapError ProtocolError.Bincode :=
  from_slice_ok_and_max_accepted.2 (List.replicate MAX_PACKET_SIZE 0)
    (List.length_replicate MAX_PACKET_SIZE 0)

/-- Decoding the exact frame produced for a message of in-limit size yields
the message back (core of the round-trip property). -/
theorem read_protocol_frame (m : ProtocolMessage)
    (hv : validMessage m = true) (hle : (serialize m).length ≤ MAX_PACKET_SIZE) :
    read_protocol (toBE4 (serialize m).length ++ serialize m) = .ok m := by
  have hL32 : (serialize m).length < 4294967296 := by
    have h : MAX_PACKET_SIZE < 4294967296 := by norm_num [MAX_PACKET_SIZE]
    omega
  have hstream : ¬ ((toBE4 (serialize m).length ++ serialize m).length < 4) := by
    simp [List.length_append, toBE4_length]
  have htake : (toBE4 (serialize m).length ++ serialize m).take 4 =
      toBE4 (serialize m).length := by
    have h := List.take_left (toBE4 (serialize m).length) (serialize m)
    rwa [toBE4_length] at h
  have hdrop : (toBE4 (serialize m).length ++ serialize m).drop 4 = serialize m := by
    have h := List.drop_left (toBE4 (serialize m).length) (serialize m)
    rwa [toBE4_length] at h
  have hfs : PacketSize.from_slice (toBE4 (serialize m).length) =
      .ok ⟨(serialize m).length⟩ := by
    simp only [toBE4, PacketSize.from_slice]
    rw [fromBE4_toBE4 _ hL32]
  have hc1 : ¬ ((serialize m).length > MAX_PACKET_SIZE) := not_lt.mpr hle
  have hc2 : ¬ ((serialize m).length < (serialize m).length) := lt_irrefl _
  have htakeall : (serialize m).take (serialize m).length = serialize m :=
    List.take_length (serialize m)
  unfold read_protocol
  rw [if_neg hstream, htake]
  simp only [hfs, if_neg hc1, if_neg hc2, hdrop, htakeall,
    deserialize_serialize m hle hv]

/-- C4: round-trip — for every valid `ProtocolMessage` (string fields are
UTF-8, as Rust's `String` guarantees), if `into_packet` produces a frame,
then decoding that frame exactly as `read_protocol` does (header parse,
length check, bincode deserialize) yields the original message. -/
theorem decode_encode (m : ProtocolMessage) (frame : Bytes)
    (hv : validMessage m = true) (henc : intoPacket m = .ok frame) :
    read_protocol frame = .ok m := by
  have hle : (serialize m).length ≤ MAX_PACKET_SIZE := by
    by_contra hgt
    push_neg at hgt
    unfold intoPacket serializedSize at henc
    rw [if_pos hgt] at henc
    exact absurd henc (by simp)
  have hc : ¬ ((serialize m).length > MAX_PACKET_SIZE) := not_lt.mpr hle
  unfold intoPacket serializedSize at henc
  rw [if_neg hc] at henc
  simp only [if_neg hc, Except.ok.injEq] at henc
  rw [← henc]
  exact read_protocol_frame m hv hle

/-- Witness for C4 at the concrete request
`TaskRequest(HashPacket { algorithm: SHA256, path: Local("/etc") })`:
its 28-byte payload framed with the header `[0,0,0,28]` decodes back to it. -/
theorem decode_encode_witness :
    read_protocol [0, 0, 0, 28, 0, 0, 0, 0, 0, 0, 0, 0, 0, 0, 0, 1, 0, 0, 0, 0,
        0, 0, 0, 0, 0, 0, 0, 4, 47, 101, 116, 99] =
      .ok (ProtocolMessage.TaskRequest (TaskRequest.HashPacket
        ⟨HashAlgorithms.SHA256, FilePath.Local [47, 101, 116, 99]⟩)) :=
  decode_encode _ _ (by rfl) (by rfl)

/-- The serialized size of a `Success` response: 16 bytes of discriminants
and length prefix plus the string bytes. -/
theorem serialize_success_length (s : Bytes) :
    (serialize (ProtocolMessage.TaskResponse (TaskResponse.Success s))).length
      = 16 + s.length := by
  simp only [serialize, serTaskResponse, serString, List.length_append,
    toBE4_length, toBE8_length]
  omega

/-- Over the limit, `serialized_size` itself fails with `SizeLimit`, so
`into_packet` returns the bincode error (the `PacketTooLarge` branch is
unreachable). -/
theorem intoPacket_oversized (m : ProtocolMessage)
    (hgt : MAX_PACKET_SIZE < (serialize m).length) :
    intoPacket m = .error (.Bincode .SizeLimit) := by
  unfold intoPacket serializedSize
  rw [if_pos hgt]

/-- C3 counterexample: a response whose bincode payload is 1,048,592 bytes
(16 bytes of tags and length prefix plus a string of `MAX_PACKET_SIZE`
characters) makes `into_packet` fail with the bincode `SizeLimit` error —
not with the `PacketTooLarge` kind the claim names: `serialized_size` runs
under the same `with_limit` bound and fails first, so the explicit
`PacketTooLarge` branch of `into_packet` is unreachable. -/
theorem intoPacket_oversized_counterexample :
    intoPacket (ProtocolMessage.TaskResponse (TaskResponse.Success
      (List.replicate 1048576 97))) = .error (.Bincode .SizeLimit) :=
  intoPacket_oversized (ProtocolMessage.TaskResponse (TaskResponse.Success
      (List.replicate 1048576 97)))
    (by rw [serialize_success_length, List.length_replicate]
        norm_num [MAX_PACKET_SIZE])

/-- C3 amended: `into_packet` fails on every message whose serialized payload
exceeds `MAX_PACKET_SIZE`, but with the bincode `SizeLimit` error kind
(raised by `serialized_size` under `with_limit`) rather than
`PacketTooLarge`; for every message within the limit it succeeds and returns
the 4-byte big-endian length header followed by the bincode payload. -/
theorem intoPacket_spec (m : ProtocolMessage) :
    (MAX_PACKET_SIZE < (serialize m).length →
      intoPacket m = .error (.Bincode .SizeLimit))
    ∧ ((serialize m).length ≤ MAX_PACKET_SIZE →
      intoPacket m = .ok (toBE4 (serialize m).length ++ serialize m)) := by
  constructor
  · intro hgt
    unfold intoPacket serializedSize
    rw [if_pos hgt]
  · intro hle
    have hc : ¬ ((serialize m).length > MAX_PACKET_SIZE) := not_lt.mpr hle
    unfold intoPacket serializedSize
    rw [if_neg hc]
    simp only [if_neg hc]

/-- Witness for the amended C3 on the in-limit side, at the concrete message
`TaskResponse(Failed)` (8-byte payload). -/
theorem intoPacket_spec_witness :
    intoPacket (ProtocolMessage.TaskResponse TaskResponse.Failed) =
      .ok (toBE4 (serialize (ProtocolMessage.TaskResponse TaskResponse.Failed)).length
        ++ serialize (ProtocolMessage.TaskResponse TaskResponse.Failed)) :=
  (intoPacket_spec (ProtocolMessage.TaskResponse TaskResponse.Failed)).2 (by decide)

/-- An out-of-range `HashAlgorithms` variant index (`≥ 14`) makes the
serde-derived deserializer fail — there is no fallback to `UNIMPLEMENTED`. -/
theorem deHashAlg_invalid (t : Nat) (rest : Bytes) (b : Nat)
    (ht : 14 ≤ t) (ht32 : t < 4294967296) (hb : 4 ≤ b) :
    deHashAlg ⟨toBE4 t ++ rest, b⟩ = .error .InvalidVariant := by
  have h := deU32_toBE4 t rest b ht32 hb
  have e0 : t ≠ 0 := by omega
  have e1 : t ≠ 1 := by omega
  have e2 : t ≠ 2 := by omega
  have e3 : t ≠ 3 := by omega
  have e4 : t ≠ 4 := by omega
  have e5 : t ≠ 5 := by omega
  have e6 : t ≠ 6 := by omega
  have e7 : t ≠ 7 := by omega
  have e8 : t ≠ 8 := by omega
  have e9 : t ≠ 9 := by omega
  have e10 : t ≠ 10 := by omega
  have e11 : t ≠ 11 := by omega
  have e12 : t ≠ 12 := by omega
  have e13 : t ≠ 13 := by omega
  unfold deHashAlg
  rw [h]
  simp [e0, e1, e2, e3, e4, e5, e6, e7, e8, e9, e10, e11, e12, e13]

/-- An out-of-range `FilePath` variant index (`≥ 2`) makes the serde-derived
deserializer fail. -/
theorem deFilePath_invalid (t : Nat) (rest : Bytes) (b : Nat)
    (ht : 2 ≤ t) (ht32 : t < 4294967296) (hb : 4 ≤ b) :
    deFilePath ⟨toBE4 t ++ rest, b⟩ = .error .InvalidVariant := by
  have h := deU32_toBE4 t rest b ht32 hb
  have e0 : t ≠ 0 := by omega
  have e1 : t ≠ 1 := by omega
  unfold deFilePath
  rw [h]
  simp [e0, e1]

/-- C1 counterexample: the 16-byte frame declaring a 12-byte payload that
encodes `TaskRequest`/`HashPacket` with `HashAlgorithm` discriminant 99 makes
`read_protocol` fail with a bincode invalid-variant error — it does *not*
return a message carrying `UNIMPLEMENTED`. The serde-derived deserializer
used by `read_protocol` has no catch-all attribute; the byte-level fallback
exists only in `HashingPacket::try_from_bytes` in `src/network.rs`, which
`read_protocol` never calls. -/
theorem read_protocol_unknown_alg_counterexample :
    read_protocol [0, 0, 0, 12, 0, 0, 0, 0, 0, 0, 0, 0, 0, 0, 0, 99]
      = .error (.Bincode .InvalidVariant) := rfl

/-- C1 amended: in the deserialization performed by `read_protocol`, unknown
discriminants are hard failures for *all* the enums — the outer unions
(`ProtocolMessage`, `TaskRequest`, `TaskResponse`, `FilePath`) *and*
`HashAlgorithms`: an algorithm discriminant outside `0..13` yields a
malformed-payload error, not the catch-all `Unimplemented` variant. -/
theorem unknown_discriminants_hard_fail (t : Nat) (rest : Bytes)
    (ht32 : t < 4294967296) :
    (14 ≤ t → deserialize (toBE4 0 ++ (toBE4 0 ++ (toBE4 t ++ rest)))
        = .error .InvalidVariant)
    ∧ (2 ≤ t → deserialize (toBE4 t ++ rest) = .error .InvalidVariant)
    ∧ (1 ≤ t → deserialize (toBE4 0 ++ (toBE4 t ++ rest)) = .error .InvalidVariant)
    ∧ (2 ≤ t → deserialize (toBE4 1 ++ (toBE4 t ++ rest)) = .error .InvalidVariant)
    ∧ (2 ≤ t → deserialize (toBE4 0 ++ (toBE4 0 ++ (toBE4 13 ++ (toBE4 t ++ rest))))
        = .error .InvalidVariant) := by
  refine ⟨?_, ?_, ?_, ?_, ?_⟩
  · intro ht
    have h1 := deU32_toBE4 0 (toBE4 0 ++ (toBE4 t ++ rest)) MAX_PACKET_SIZE
      (by norm_num) (by norm_num [MAX_PACKET_SIZE])
    have h2 := deU32_toBE4 0 (toBE4 t ++ rest) (MAX_PACKET_SIZE - 4)
      (by norm_num) (by norm_num [MAX_PACKET_SIZE])
    have h3 := deHashAlg_invalid t rest (MAX_PACKET_SIZE - 4 - 4) ht ht32
      (by norm_num [MAX_PACKET_SIZE])
    unfold deserialize deProtocolMessage deTaskRequest deHashingPacket
    simp [h1, h2, h3]
  · intro ht
    have e0 : t ≠ 0 := by omega
    have e1 : t ≠ 1 := by omega
    have h1 := deU32_toBE4 t rest MAX_PACKET_SIZE ht32 (by norm_num [MAX_PACKET_SIZE])
    unfold deserialize deProtocolMessage
    simp [h1, e0, e1]
  · intro ht
    have e0 : t ≠ 0 := by omega
    have h1 := deU32_toBE4 0 (toBE4 t ++ rest) MAX_PACKET_SIZE
      (by norm_num) (by norm_num [MAX_PACKET_SIZE])
    have h2 := deU32_toBE4 t rest (MAX_PACKET_SIZE - 4) ht32
      (by norm_num [MAX_PACKET_SIZE])
    unfold deserialize deProtocolMessage deTaskRequest
    simp [h1, h2, e0]
  · intro ht
    have e0 : t ≠ 0 := by omega
    have e1 : t ≠ 1 := by omega
    have h1 := deU32_toBE4 1 (toBE4 t ++ rest) MAX_PACKET_SIZE
      (by norm_num) (by norm_num [MAX_PACKET_SIZE])
    have h2 := deU32_toBE4 t rest (MAX_PACKET_SIZE - 4) ht32
      (by norm_num [MAX_PACKET_SIZE])
    unfold deserialize deProtocolMessage deTaskResponse
    simp [h1, h2, e0, e1]
  · intro ht
    have h1 := deU32_toBE4 0 (toBE4 0 ++ (toBE4 13 ++ (toBE4 t ++ rest))) MAX_PACKET_SIZE
      (by norm_num) (by norm_num [MAX_PACKET_SIZE])
    have h2 := deU32_toBE4 0 (toBE4 13 ++ (toBE4 t ++ rest)) (MAX_PACKET_SIZE - 4)
      (by norm_num) (by norm_num [MAX_PACKET_SIZE])
    have h3 := deHashAlg_ser HashAlgorithms.UNIMPLEMENTED (toBE4 t ++ rest)
      (MAX_PACKET_SIZE - 4 - 4) (by norm_num [MAX_PACKET_SIZE])
    rw [show hashAlgTag HashAlgorithms.UNIMPLEMENTED = 13 from rfl] at h3
    have h4 := deFilePath_invalid t rest (MAX_PACKET_SIZE - 4 - 4 - 4) ht ht32
      (by norm_num [MAX_PACKET_SIZE])
    unfold deserialize deProtocolMessage deTaskRequest deHashingPacket
    simp [h1, h2, h3, h4]

/-- Witness for the amended C1 at the concrete discriminant 99: the
`HashAlgorithms` position hard-fails. -/
theorem unknown_discriminants_hard_fail_witness :
    deserialize (toBE4 0 ++ (toBE4 0 ++ (toBE4 99 ++ []))) = .error .InvalidVariant :=
  (unknown_discriminants_hard_fail 99 [] (by norm_num)).1 (by norm_num)

/-- C2 counterexample: a fully parsed `HashPacket` request whose one-shot
await fails (as happens both when the queue send fails — dropping the
`WorkItem` and its one-shot sender — and when a worker drops the responder)
makes the handler continue its loop with *no* frame written: the request is
silently dropped, not answered with a `Failed`-equivalent response as the
claim states. -/
theorem handler_await_failure_counterexample :
    handlerStep (.ok (.TaskRequest (.HashPacket
        ⟨.SHA256, .Local [47, 101, 116, 99]⟩))) none true
      = ⟨[], .continued⟩ := rfl

/-- C2 amended: when the dispatch send or the one-shot await fails, the
handler sends no response at all for that request and continues its loop
(the request is silently dropped — it neither crashes nor answers); only
when the await succeeds and the result frames successfully is exactly one
response frame written; at most one frame is ever written per parsed
request. -/
theorem handler_response_discipline (p : HashingPacket) (w : Bool) :
    (handlerStep (.ok (.TaskRequest (.HashPacket p))) none w = ⟨[], .continued⟩)
    ∧ (∀ result pkt, intoPacket result = .ok pkt →
        handlerStep (.ok (.TaskRequest (.HashPacket p))) (some result) true
          = ⟨[pkt], .continued⟩)
    ∧ (∀ a, ((handlerStep (.ok (.TaskRequest (.HashPacket p))) a w).sent).length ≤ 1) := by
  refine ⟨rfl, ?_, ?_⟩
  · intro result pkt h
    simp [handlerStep, h]
  · intro a
    cases a with
    | none => simp [handlerStep]
    | some result =>
      cases h : intoPacket result with
      | error e => simp [handlerStep, h]
      | ok pkt => cases w <;> simp [handlerStep, h]

/-- Witness for the amended C2: a successful await of `TaskResponse(Failed)`
produces exactly the one encoded frame. -/
theorem handler_response_discipline_witness :
    handlerStep (.ok (.TaskRequest (.HashPacket ⟨.SHA256, .Local [47]⟩)))
        (some (.TaskResponse .Failed)) true
      = ⟨[toBE4 8 ++ serialize (ProtocolMessage.TaskResponse TaskResponse.Failed)],
          .continued⟩ :=
  (handler_response_discipline ⟨.SHA256, .Local [47]⟩ true).2.1
    (ProtocolMessage.TaskResponse TaskResponse.Failed)
    (toBE4 8 ++ serialize (ProtocolMessage.TaskResponse TaskResponse.Failed)) (by rfl)

/-- C8: a decoded message tagged `TaskResponse` arriving from a client is
discarded by the handler — nothing is written, the connection is not closed,
and the loop continues waiting for the next frame — whatever the environment
would have answered at the other suspension points. -/
theorem handler_discards_client_task_response (r : TaskResponse)
    (a : Option ProtocolMessage) (w : Bool) :
    handlerStep (.ok (.TaskResponse r)) a w = ⟨[], .continued⟩ := rfl

/-- C7: for every claimed work item, an `UNIMPLEMENTED` algorithm or a
`Remote` path yields `TaskResponse::Failed` (the computation is a total
function — no panic or hang in the model); a local open/read I/O failure
also collapses to `Failed`; and in general every hashing error, and even a
failed `spawn_blocking` join, maps to the opaque `Failed` with no detail. -/
theorem worker_failures_collapse (digests : HashAlgorithms → Bytes → Bytes)
    (fs : Bytes → Except Unit Bytes) (p : HashingPacket) :
    (p.algorithm = .UNIMPLEMENTED →
      finalResponse (.ok (workerCompute digests fs p)) = .TaskResponse .Failed)
    ∧ (∀ s, p.path = .Remote s →
      finalResponse (.ok (workerCompute digests fs p)) = .TaskResponse .Failed)
    ∧ (∀ pth, p.path = .Local pth → fs pth = .error () →
      finalResponse (.ok (workerCompute digests fs p)) = .TaskResponse .Failed)
    ∧ (∀ e : HashError, finalResponse (.ok (.error e)) = .TaskResponse .Failed)
    ∧ finalResponse (.error ()) = .TaskResponse .Failed := by
  refine ⟨?_, ?_, ?_, ?_, rfl⟩
  · intro h
    simp [workerCompute, h, finalResponse]
  · intro s hs
    cases halg : p.algorithm <;>
      simp [workerCompute, halg, hs, hash_reader, finalResponse]
  · intro pth hp hfs
    cases halg : p.algorithm <;>
      simp [workerCompute, halg, hp, hfs, hash_reader, finalResponse]
  · intro e
    rfl

/-- Witness for C7 at concrete inputs: an `UNIMPLEMENTED` packet, a `Remote`
packet, and a missing local file all produce `Failed`. -/
theorem worker_failures_collapse_witness :
    finalResponse (.ok (workerCompute (fun _ c => c) (fun _ => .error ())
      ⟨HashAlgorithms.UNIMPLEMENTED, FilePath.Local [47]⟩)) = .TaskResponse .Failed ∧
    finalResponse (.ok (workerCompute (fun _ c => c) (fun _ => .error ())
      ⟨HashAlgorithms.SHA256, FilePath.Remote [104]⟩)) = .TaskResponse .Failed ∧
    finalResponse (.ok (workerCompute (fun _ c => c) (fun _ => .error ())
      ⟨HashAlgorithms.SHA256, FilePath.Local [47]⟩)) = .TaskResponse .Failed :=
  ⟨(worker_failures_collapse (fun _ c => c) (fun _ => .error ())
      ⟨HashAlgorithms.UNIMPLEMENTED, FilePath.Local [47]⟩).1 rfl,
   (worker_failures_collapse (fun _ c => c) (fun _ => .error ())
      ⟨HashAlgorithms.SHA256, FilePath.Remote [104]⟩).2.1 [104] rfl,
   (worker_failures_collapse (fun _ c => c) (fun _ => .error ())
      ⟨HashAlgorithms.SHA256, FilePath.Local [47]⟩).2.2.1 [47] rfl rfl⟩

/-- C9: for every claimed `WorkItem`, the worker passes exactly one message
to the one-shot responder, that message is always a
`ProtocolMessage::TaskResponse`, whatever the hashing outcome — success,
hashing error, or a failed `spawn_blocking` join — and the processing is a
total function of the receiver's state, so a dropped receiver (the send's
`Err` being discarded by `let _ =`) cannot make it panic. -/
theorem worker_fulfills_exactly_once (receiverOpen : Bool)
    (result : Except Unit (Except HashError Bytes)) :
    (workerFulfill receiverOpen result).length = 1
    ∧ ∃ tr : TaskResponse,
        workerFulfill receiverOpen result = [.TaskResponse tr] := by
  refine ⟨rfl, ?_⟩
  cases result with
  | ok r =>
    cases r with
    | ok h => exact ⟨.Success h, rfl⟩
    | error e => exact ⟨.Failed, rfl⟩
  | error e => exact ⟨.Failed, rfl⟩
